import Mathlib

/-!
Verification of the NCM converter (`src/ncm_converter.py`).

The Python source is shallowly embedded: bytes are `Nat` values (always
`< 256` in practice), byte strings are `List Nat`, and the file reader of
`decrypt_ncm` is explicit position passing over the input byte list.
Python's `x & 0xff` on non-negative integers is written `% 256`, which is
the same function on naturals.  External library calls (AES, base64,
UTF-8 decoding, JSON parsing, the network cover fetch) are parameters of
the model; everything the repository itself computes is translated
directly from the source.
-/

/-- Bytes of the fixed magic signature `43 54 45 4E 46 44 41 4D`
("CTENFDAM"); `decrypt_ncm` compares the hex of the first 8 read bytes
against this constant (src line 70). -/
def magicBytes : List Nat := [0x43, 0x54, 0x45, 0x4E, 0x46, 0x44, 0x41, 0x4D]

/-- The static core key `687A4852416D736F356B496E62617857` (src line 64). -/
def coreKey : List Nat :=
  [0x68, 0x7A, 0x48, 0x52, 0x41, 0x6D, 0x73, 0x6F,
   0x35, 0x6B, 0x49, 0x6E, 0x62, 0x61, 0x78, 0x57]

/-- The static metadata key `2331346C6A6B5F215C5D2630553C2728` (src line 65). -/
def metaKey : List Nat :=
  [0x23, 0x31, 0x34, 0x6C, 0x6A, 0x6B, 0x5F, 0x21,
   0x5C, 0x5D, 0x26, 0x30, 0x55, 0x3C, 0x27, 0x28]

/-- The padding-removal lambda `s[0:-(s[-1])]` of src line 66.
On the empty buffer Python raises `IndexError` (modelled as `none`).
Otherwise, with `n` the last byte, the Python slice `s[0:-n]` is the
empty list when `n = 0` (since `-0 = 0`), and otherwise the first
`len(s) - n` elements, clamped to empty when `n > len(s)`; the `if` and
the truncated `Nat` subtraction reproduce exactly that. -/
def unpad (s : List Nat) : Option (List Nat) :=
  match s.getLast? with
  | none => none
  | some n => some (if n = 0 then [] else s.take (s.length - n))

/-- `verify_output` (src lines 47-57): reads the first 4 bytes of the
written file (here: the file's content) and checks the format signature.
`header[:3]` and `header[:2]` on `header = content.take 4` are
`content.take 3` and `content.take 2`. -/
def verifyOutput (content : List Nat) (fmt : String) : Bool :=
  let header := content.take 4
  if fmt = "flac" then
    header == [0x66, 0x4C, 0x61, 0x43]
  else if fmt = "mp3" then
    header.take 3 == [0x49, 0x44, 0x33] ||
      header.take 2 == [0xFF, 0xFB] || header.take 2 == [0xFF, 0xFA]
  else
    false

/-- The key-scheduling pass of src lines 82-86: `box = list(range(256))`,
then for `i` in `0..255`, `j = (j + box[i] + key_data[i % len(key_data)])
& 0xff` followed by the simultaneous swap `box[i], box[j] = box[j],
box[i]`. -/
def coreBox (key : List Nat) : List Nat :=
  ((List.range 256).foldl
    (fun st i =>
      let box := st.1
      let j := (st.2 + box.getD i 0 + key.getD (i % key.length) 0) % 256
      ((box.set i (box.getD j 0)).set j (box.getD i 0), j))
    (List.range 256, 0)).1

/-- The body of the table-filling loop of src lines 89-93 for one index. -/
def tableEntry (box : List Nat) (i : Nat) : Nat :=
  let key1 := (i + 1) % 256
  let key2 := (key1 + box.getD key1 0) % 256
  let idx := (box.getD key1 0 + box.getD key2 0) % 256
  box.getD idx 0

/-- The derived keystream table of src lines 88-93: `key_stream = [0] *
256`, then for `i` in `0..255` the entry `i` is set from the box. -/
def keyStream (key : List Nat) : List Nat :=
  let box := coreBox key
  (List.range 256).foldl (fun t i => t.set i (tableEntry box i)) (List.replicate 256 0)

/-- One pass of the inner loop of src lines 124-126 over a single chunk:
each byte is XORed with `key_stream[stream_index]` and the index advances
by `(stream_index + 1) & 0xff`.  Returns the transformed chunk together
with the stream index left for the next chunk. -/
def decChunk (table : List Nat) : Nat → List Nat → List Nat × Nat
  | st, [] => ([], st)
  | st, b :: rest =>
    let r := decChunk table ((st + 1) % 256) rest
    ((b ^^^ table.getD st 0) :: r.1, r.2)

/-- The `while True` chunk loop of src lines 119-127: the stream index is
threaded through the chunks (initialised once to 0 before the loop, never
reset), and the transformed chunks are written in order. -/
def decStream (table : List Nat) : Nat → List (List Nat) → List Nat × Nat
  | st, [] => ([], st)
  | st, c :: cs =>
    let r := decChunk table st c
    let rest := decStream table r.2 cs
    (r.1 ++ rest.1, rest.2)

/-- Structural worker for `chunksOf`: the fuel argument only bounds the
recursion depth; starting from `l.length` it never runs out when the
chunk size is positive, since every step drops at least one element. -/
def chunksOfAux (n : Nat) : Nat → List Nat → List (List Nat)
  | _, [] => []
  | 0, _ :: _ => []
  | fuel + 1, b :: rest => ((b :: rest).take n) :: chunksOfAux n fuel ((b :: rest).drop n)

/-- `f.read(0x8000)` chunking of src line 121: the payload split into
successive pieces of at most `n` bytes (the source always uses the fixed
positive chunk size `0x8000`). -/
def chunksOf (n : Nat) (l : List Nat) : List (List Nat) :=
  chunksOfAux n l.length l

/-- One entry of a JSON `artist` array: in the source it may be a list
(`[name, id]`, whose first element is read when it is a string), a bare
string, or anything else. -/
inductive ArtistEntry where
  | lst (xs : List String)
  | strv (s : String)
  | other
deriving DecidableEq

/-- The JSON value of the `artist` key, which need not be an array: an
array, a string (subscriptable, `[0]` is its first character), a falsy
non-array value (`0`, `null`, `""`, `{}`, `false`, all of which make
`if artist_data` skip to the `else` branch), or a truthy non-array value
whose `[0]` subscript at src line 182 raises (`TypeError` for an int,
`KeyError` for a non-empty dict); `e` stands for Python's `str(e)`. -/
inductive ArtistVal where
  | arr (entries : List ArtistEntry)
  | pystr (s : String)
  | falsy
  | badSubscript (e : String)
deriving DecidableEq

/-- The fields of the parsed metadata JSON object that `decrypt_ncm`
reads (`format`, `musicName`, `artist`, `album`, `musicId`); `none`
models an absent key, for which the source's `.get` defaults apply. -/
structure Meta where
  format : Option String
  musicName : Option String
  artist : Option ArtistVal
  album : Option String
  musicId : Option Nat
deriving DecidableEq

/-- The default metadata dict of src line 105, synthesized when
`meta_len` is 0. -/
def defaultMeta (stem : String) : Meta :=
  { format := some "mp3", musicName := some stem,
    artist := some (ArtistVal.arr []),
    album := some "Unknown", musicId := some 0 }

/-- The artist extraction of src lines 181-187, with `.get('artist', [])`
defaulting to the empty (falsy) array.  A truthy non-subscriptable value
raises at `artist_data[0]` (src line 182), so the extraction is
fallible; a non-empty string `s` reaches the `isinstance(..., str)`
branch with `artist_data[0]` its first character. -/
def artistOf (m : Meta) : Except String String :=
  match m.artist.getD (ArtistVal.arr []) with
  | ArtistVal.arr [] => Except.ok "Unknown"
  | ArtistVal.arr (ArtistEntry.lst [] :: _) => Except.ok "Unknown"
  | ArtistVal.arr (ArtistEntry.lst (x :: _) :: _) => Except.ok x
  | ArtistVal.arr (ArtistEntry.strv s :: _) => Except.ok s
  | ArtistVal.arr (ArtistEntry.other :: _) => Except.ok "Unknown"
  | ArtistVal.pystr s => if s = "" then Except.ok "Unknown" else Except.ok (s.take 1)
  | ArtistVal.falsy => Except.ok "Unknown"
  | ArtistVal.badSubscript e => Except.error e

/-- `file_path.with_suffix('.' + audio_format)` of src line 116, reduced
to the output file name.  Models `pathlib` on the tested Python versions
(3.13/3.14): the suffix `'.' + fmt` always starts with a dot, so the
call raises `ValueError("Invalid suffix '.'")` exactly when the suffix
is `'.'` alone (`fmt = ""`); a path separator in the resulting name
makes the underlying `with_name` raise `ValueError` as well.  Both
raises happen before any output file is opened. -/
def pathWithSuffix (stem fmt : String) : Except String String :=
  if fmt = "" then
    Except.error "Invalid suffix '.'"
  else if (stem ++ "." ++ fmt).data.contains '/' then
    Except.error ("Invalid name " ++ "'" ++ stem ++ "." ++ fmt ++ "'")
  else
    Except.ok (stem ++ "." ++ fmt)

/-- The two shapes of dict returned by `decrypt_ncm`: the success record
of src lines 189-198 and the failure record of src lines 71, 131 and 201. -/
inductive ConvResult where
  | ok (file output title artist album format cover : String)
  | err (file error : String)
deriving DecidableEq

/-- The `file` entry, present in both result shapes. -/
def ConvResult.fileOf : ConvResult → String
  | ConvResult.ok f _ _ _ _ _ _ => f
  | ConvResult.err f _ => f

/-- The `success` flag of the result dict. -/
def ConvResult.isOk : ConvResult → Bool
  | ConvResult.ok _ _ _ _ _ _ _ => true
  | ConvResult.err _ _ => false

/-- The `error` entry (empty for a success record, which has none). -/
def ConvResult.errMsg : ConvResult → String
  | ConvResult.ok _ _ _ _ _ _ _ => ""
  | ConvResult.err _ e => e

/-- The per-file input of `decrypt_ncm`: the file's bytes plus the two
path components the source takes from `pathlib` (`file_path.name` and
`file_path.stem`). -/
structure Args where
  name : String
  stem : String
  bytes : List Nat

/-- The external collaborators `decrypt_ncm` calls into: AES-ECB
decryption (keyed), base64 decoding, UTF-8 decoding and JSON parsing,
each of which may raise (modelled as `Except`, the error string standing
for Python's `str(e)`), and the cover-fetch/tag-embedding section of src
lines 133-179, which is wrapped in a bare `try/except` and only ever
produces the `cover` status string. -/
structure ExtLib where
  aes : List Nat → List Nat → Except String (List Nat)
  b64 : List Nat → Except String (List Nat)
  utf8 : List Nat → Except String String
  json : String → Except String Meta
  cover : String

/-- `struct.unpack('<I', f.read(4))[0]` (src lines 74, 95, 109, 110):
reads 4 bytes little-endian at `pos`; `struct.error` when fewer than 4
bytes remain.  Returns the value and the new position. -/
def readU32 (data : List Nat) (pos : Nat) : Except String (Nat × Nat) :=
  let bs := (data.drop pos).take 4
  if bs.length = 4 then
    Except.ok (bs.getD 0 0 + bs.getD 1 0 * 256 + bs.getD 2 0 * 65536 +
      bs.getD 3 0 * 16777216, pos + 4)
  else
    Except.error "unpack requires a buffer of 4 bytes"

/-- Observable outcome of one `decrypt_ncm` run: the returned dict, the
output file surviving on disk at the end (name and content; `none` when
never written or deleted again), and trace points of the pipeline — the
parsed metadata-block length, the metadata record in use, the recovered
`audio_format`, and whether `verify_output` ran and returned `False`. -/
structure Run where
  result : ConvResult
  outFile : Option (String × List Nat)
  metaLen : Option Nat
  metaUsed : Option Meta
  fmtRecovered : Option String
  verifyFailed : Bool
deriving DecidableEq

/-- The metadata stage of `decrypt_ncm` (src lines 95-105, after the
length field has been read): when `meta_len > 0`, read the block, XOR
each byte with `0x63`, drop the 22-byte literal prefix, base64-decode,
AES-decrypt with the metadata key, unpad, UTF-8-decode, drop 6
characters and JSON-parse; when `meta_len = 0`, synthesize the default
record.  Returns the record and the new read position, or the first
raised error. -/
def metaParse (a : Args) (ext : ExtLib) (data : List Nat) (metaLenV pos : Nat) :
    Except String (Meta × Nat) :=
  if metaLenV > 0 then
    let metaRaw := (data.drop pos).take metaLenV
    let pos := pos + metaRaw.length
    match ext.b64 ((metaRaw.map (fun b => b ^^^ 0x63)).drop 22) with
    | Except.error e => Except.error e
    | Except.ok b =>
      match ext.aes metaKey b with
      | Except.error e => Except.error e
      | Except.ok dec2 =>
        match unpad dec2 with
        | none => Except.error "index out of range"
        | some u =>
          match ext.utf8 u with
          | Except.error e => Except.error e
          | Except.ok s =>
            match ext.json (s.drop 6) with
            | Except.error e => Except.error e
            | Except.ok m => Except.ok (m, pos)
  else
    Except.ok (defaultMeta a.stem, pos)

/-- The write-verify-return tail of `decrypt_ncm` (src lines 118-198),
once the decrypted payload `content` and the output name are fixed: the
content is written to the output file, verified (src line 129), and on
mismatch the file is deleted (`unlink`) and the failure dict returned;
on success the cover section (the `ext.cover` collaborator, whose bare
`try/except` cannot raise) runs, then the artist extraction of src
lines 181-187 — which can still raise on a malformed `artist` value,
caught by the outer handler with the verified output file left in
place — and finally the success dict of src lines 189-198. -/
def finishWrite (a : Args) (ext : ExtLib) (metaLenV : Nat) (m : Meta)
    (fmt outName : String) (content : List Nat) : Run :=
  if verifyOutput content fmt then
    match artistOf m with
    | Except.error e =>
      { result := ConvResult.err a.name e,
        outFile := some (outName, content), metaLen := some metaLenV,
        metaUsed := some m, fmtRecovered := some fmt, verifyFailed := false }
    | Except.ok artist =>
      { result := ConvResult.ok a.name outName (m.musicName.getD "Unknown")
          artist (m.album.getD "Unknown") fmt.toUpper ext.cover,
        outFile := some (outName, content), metaLen := some metaLenV,
        metaUsed := some m, fmtRecovered := some fmt, verifyFailed := false }
  else
    { result := ConvResult.err a.name "Output verification failed",
      outFile := none, metaLen := some metaLenV, metaUsed := some m,
      fmtRecovered := some fmt, verifyFailed := true }

/-- The tail of `decrypt_ncm` after the metadata stage (src lines
107-131): skip the 5-byte reserved field, read `image_space` and
`img_len`, read the embedded image, skip the image padding (with
truncated `Nat` subtraction, `pos + (image_space - img_len)` equals the
source's conditional seek), recover `audio_format` with default `mp3`,
form the output path (`pathWithSuffix`, whose `ValueError` aborts the
file before anything is written), then decrypt the remaining payload
chunkwise through the keystream table and hand over to `finishWrite`. -/
def afterMeta (a : Args) (ext : ExtLib) (data table : List Nat) (metaLenV : Nat)
    (m : Meta) (pos : Nat) : Run :=
  let pos := pos + 5
  match readU32 data pos with
  | Except.error e =>
    { result := ConvResult.err a.name e, outFile := none, metaLen := some metaLenV,
      metaUsed := some m, fmtRecovered := none, verifyFailed := false }
  | Except.ok (imageSpace, pos) =>
    match readU32 data pos with
    | Except.error e =>
      { result := ConvResult.err a.name e, outFile := none, metaLen := some metaLenV,
        metaUsed := some m, fmtRecovered := none, verifyFailed := false }
    | Except.ok (imgLen, pos) =>
      let imgBytes := (data.drop pos).take imgLen
      let pos := pos + imgBytes.length
      let pos := pos + (imageSpace - imgLen)
      let fmt := m.format.getD "mp3"
      match pathWithSuffix a.stem fmt with
      | Except.error e =>
        { result := ConvResult.err a.name e, outFile := none,
          metaLen := some metaLenV, metaUsed := some m,
          fmtRecovered := some fmt, verifyFailed := false }
      | Except.ok outName =>
        let content := (decStream table 0 (chunksOf 0x8000 (data.drop pos))).1
        finishWrite a ext metaLenV m fmt outName content

/-- `decrypt_ncm` (src lines 60-201).  The whole body sits in a
`try/except Exception` that turns any raised error into the failure dict
of src line 201; raising is modelled by the `Except.error` branches of
the collaborators and of `readU32`/`unpad`, each of which exits with a
failure `Run` carrying the trace accumulated so far.  File reads advance
an explicit position; a read past end-of-file returns the available
bytes, as Python's `f.read` does.  The keystream is derived (and a
`ZeroDivisionError` raised on an empty key) before the metadata length
is read, matching the source order; the metadata stage and the audio
tail are `metaParse` and `afterMeta`. -/
def runNcm (a : Args) (ext : ExtLib) : Run :=
  let data := a.bytes
  if data.take 8 = magicBytes then
    match readU32 data 10 with
    | Except.error e =>
      { result := ConvResult.err a.name e, outFile := none, metaLen := none,
        metaUsed := none, fmtRecovered := none, verifyFailed := false }
    | Except.ok (keyLen, pos) =>
      let keyRaw := (data.drop pos).take keyLen
      let pos := pos + keyRaw.length
      match ext.aes coreKey (keyRaw.map (fun b => b ^^^ 0x64)) with
      | Except.error e =>
        { result := ConvResult.err a.name e, outFile := none, metaLen := none,
          metaUsed := none, fmtRecovered := none, verifyFailed := false }
      | Except.ok dec =>
        match unpad dec with
        | none =>
          { result := ConvResult.err a.name "index out of range", outFile := none,
            metaLen := none, metaUsed := none, fmtRecovered := none,
            verifyFailed := false }
        | some unpadded =>
          let km := unpadded.drop 17
          if km = [] then
            { result := ConvResult.err a.name "integer modulo by zero",
              outFile := none, metaLen := none, metaUsed := none,
              fmtRecovered := none, verifyFailed := false }
          else
            let table := keyStream km
            match readU32 data pos with
            | Except.error e =>
              { result := ConvResult.err a.name e, outFile := none, metaLen := none,
                metaUsed := none, fmtRecovered := none, verifyFailed := false }
            | Except.ok (metaLen, pos) =>
              match metaParse a ext data metaLen pos with
              | Except.error e =>
                { result := ConvResult.err a.name e, outFile := none,
                  metaLen := some metaLen, metaUsed := none, fmtRecovered := none,
                  verifyFailed := false }
              | Except.ok (m, pos) => afterMeta a ext data table metaLen m pos
  else
    { result := ConvResult.err a.name "Invalid NCM header", outFile := none,
      metaLen := none, metaUsed := none, fmtRecovered := none,
      verifyFailed := false }

/-- A concrete input file for evaluation: valid magic, a 16-byte key
block, an empty metadata block (`meta_len = 0`), no image, and a
one-byte audio payload. -/
def wArgs : Args :=
  { name := "song.ncm", stem := "song",
    bytes := magicBytes ++ [0, 0] ++ [16, 0, 0, 0] ++ List.replicate 16 1 ++
      [0, 0, 0, 0] ++ [0, 0, 0, 0, 0] ++ [0, 0, 0, 0] ++ [0, 0, 0, 0] ++ [7] }

/-- Concrete collaborators for evaluation: AES returns a 19-byte
plaintext whose padding byte is 1, leaving a one-byte key after the
17-byte literal prefix is dropped. -/
def wExt : ExtLib :=
  { aes := fun _ _ => Except.ok (List.replicate 17 0 ++ [42, 1]),
    b64 := fun b => Except.ok b,
    utf8 := fun _ => Except.ok "",
    json := fun _ => Except.error "json",
    cover := "None" }

/-- A concrete input file with a one-byte metadata block, no image and
an empty audio payload. -/
def wArgs2 : Args :=
  { name := "a.ncm", stem := "a",
    bytes := magicBytes ++ [0, 0] ++ [4, 0, 0, 0] ++ [9, 9, 9, 9] ++
      [1, 0, 0, 0] ++ [0] ++ [0, 0, 0, 0, 0] ++ [0, 0, 0, 0] ++ [0, 0, 0, 0] }

/-- Concrete collaborators whose JSON parse yields a metadata record
declaring the format `wav`, outside the validator's closed set. -/
def wExt2 : ExtLib :=
  { aes := fun k _ => if k = coreKey then Except.ok (List.replicate 17 0 ++ [42, 1])
      else Except.ok [1],
    b64 := fun _ => Except.ok [],
    utf8 := fun _ => Except.ok "",
    json := fun _ => Except.ok
      { format := some "wav", musicName := some "X",
        artist := some (ArtistVal.arr [ArtistEntry.strv "A"]),
        album := some "B", musicId := some 1 },
    cover := "None" }

/-- Concrete collaborators whose JSON parse yields a metadata record
declaring the empty format string, which makes `with_suffix` raise. -/
def wExt3 : ExtLib :=
  { aes := fun k _ => if k = coreKey then Except.ok (List.replicate 17 0 ++ [42, 1])
      else Except.ok [1],
    b64 := fun _ => Except.ok [],
    utf8 := fun _ => Except.ok "",
    json := fun _ => Except.ok
      { format := some "", musicName := some "X",
        artist := some (ArtistVal.arr []),
        album := some "B", musicId := some 1 },
    cover := "None" }

/-- An empty input file. -/
def eArgs : Args := { name := "empty.ncm", stem := "empty", bytes := [] }

/-! ## Helper lemmas -/

/-- Setting an in-bounds index and reading it back. -/
lemma getD_set_self (l : List Nat) (i v : Nat) (h : i < l.length) :
    (l.set i v).getD i 0 = v := by
  rw [List.getD_eq_getElem _ _ (by simpa using h)]
  exact List.getElem_set_self _

/-- Setting one index leaves every other index unchanged. -/
lemma getD_set_ne (l : List Nat) (i k v d : Nat) (h : i ≠ k) :
    (l.set i v).getD k d = l.getD k d := by
  simp [List.getD, List.getElem?_set_ne h]

/-- A fold over `List.range n` that sets index `k` to `f k` preserves
the length. -/
lemma length_foldl_set (f : Nat → Nat) (n : Nat) (l : List Nat) :
    ((List.range n).foldl (fun t k => t.set k (f k)) l).length = l.length := by
  induction n with
  | zero => rfl
  | succ n ih =>
    rw [List.range_succ, List.foldl_append]
    simp [ih]

/-- A fold over `List.range n` that sets index `k` to `f k`, read back at
an in-bounds index. -/
lemma getD_foldl_set (f : Nat → Nat) (n : Nat) (l : List Nat) (i : Nat)
    (hi : i < l.length) :
    ((List.range n).foldl (fun t k => t.set k (f k)) l).getD i 0 =
      if i < n then f i else l.getD i 0 := by
  induction n with
  | zero => simp
  | succ n ih =>
    rw [List.range_succ, List.foldl_append]
    simp only [List.foldl_cons, List.foldl_nil]
    by_cases hin : i = n
    · subst hin
      rw [getD_set_self _ _ _ (by rw [length_foldl_set]; exact hi)]
      simp
    · rw [getD_set_ne _ _ _ _ _ (fun e => hin e.symm), ih]
      by_cases h2 : i < n
      · simp [h2, Nat.lt_succ_of_lt h2]
      · have h3 : ¬ i < n + 1 := by omega
        simp [h2, h3]

/-- `decChunk` preserves the chunk length. -/
lemma decChunk_length (table : List Nat) :
    ∀ (l : List Nat) (st : Nat), (decChunk table st l).1.length = l.length := by
  intro l
  induction l with
  | nil => intro st; rfl
  | cons b rest ih => intro st; simp [decChunk, ih]

/-- The stream index after one chunk is the old index plus the chunk
length, mod 256. -/
lemma decChunk_snd (table : List Nat) :
    ∀ (l : List Nat) (st : Nat), st < 256 →
      (decChunk table st l).2 = (st + l.length) % 256 := by
  intro l
  induction l with
  | nil => intro st h; simp [decChunk, Nat.mod_eq_of_lt h]
  | cons b rest ih =>
    intro st h
    rw [decChunk]
    have h1 : (st + 1) % 256 < 256 := Nat.mod_lt _ (by norm_num)
    simp only [ih _ h1, Nat.mod_add_mod, List.length_cons]
    congr 1
    omega

/-- Each byte of a `decChunk` output is the input byte XORed with the
table entry at the running position mod 256. -/
lemma decChunk_getD (table : List Nat) :
    ∀ (l : List Nat) (st p : Nat), st < 256 → p < l.length →
      (decChunk table st l).1.getD p 0 =
        l.getD p 0 ^^^ table.getD ((st + p) % 256) 0 := by
  intro l
  induction l with
  | nil => intro st p _ hp; simp at hp
  | cons b rest ih =>
    intro st p hst hp
    rw [decChunk]
    cases p with
    | zero => simp [Nat.mod_eq_of_lt hst]
    | succ p =>
      have h1 : (st + 1) % 256 < 256 := Nat.mod_lt _ (by norm_num)
      have hp' : p < rest.length := by simpa using hp
      simp only [List.getD_cons_succ, ih _ _ h1 hp', Nat.mod_add_mod]
      congr 2
      omega

/-- `decStream` output length equals the total payload length. -/
lemma decStream_length (table : List Nat) :
    ∀ (cs : List (List Nat)) (st : Nat),
      (decStream table st cs).1.length = cs.flatten.length := by
  intro cs
  induction cs with
  | nil => intro st; rfl
  | cons c cs ih =>
    intro st
    simp [decStream, decChunk_length, ih]

/-- The stream index after the whole payload is the start index plus the
payload length, mod 256 — continuous across chunk boundaries. -/
lemma decStream_snd (table : List Nat) :
    ∀ (cs : List (List Nat)) (st : Nat), st < 256 →
      (decStream table st cs).2 = (st + cs.flatten.length) % 256 := by
  intro cs
  induction cs with
  | nil => intro st h; simp [decStream, Nat.mod_eq_of_lt h]
  | cons c cs ih =>
    intro st h
    rw [decStream]
    have h1 : (st + c.length) % 256 < 256 := Nat.mod_lt _ (by norm_num)
    simp only [decChunk_snd table c st h, ih _ h1, Nat.mod_add_mod, List.flatten_cons,
      List.length_append]
    congr 1
    omega

/-- Each byte of the full `decStream` output at absolute payload position
`p` is the payload byte XORed with the table entry at the running
position mod 256, across chunk boundaries. -/
lemma decStream_getD (table : List Nat) :
    ∀ (cs : List (List Nat)) (st p : Nat), st < 256 → p < cs.flatten.length →
      (decStream table st cs).1.getD p 0 =
        cs.flatten.getD p 0 ^^^ table.getD ((st + p) % 256) 0 := by
  intro cs
  induction cs with
  | nil => intro st p _ hp; simp at hp
  | cons c cs ih =>
    intro st p hst hp
    rw [decStream]
    by_cases hpc : p < c.length
    · have hL : p < (decChunk table st c).1.length := by
        rw [decChunk_length]; exact hpc
      rw [List.getD_append _ _ _ _ hL, decChunk_getD table c st p hst hpc,
        List.flatten_cons, List.getD_append _ _ _ _ hpc]
    · push_neg at hpc
      have hLen : (decChunk table st c).1.length ≤ p := by
        rw [decChunk_length]; exact hpc
      rw [List.getD_append_right _ _ _ _ hLen, decChunk_length,
        decChunk_snd table c st hst]
      have h1 : (st + c.length) % 256 < 256 := Nat.mod_lt _ (by norm_num)
      have hp' : p - c.length < cs.flatten.length := by
        rw [List.flatten_cons, List.length_append] at hp; omega
      rw [ih _ _ h1 hp', List.flatten_cons, List.getD_append_right _ _ _ _ hpc]
      congr 2
      rw [Nat.mod_add_mod]
      congr 1
      omega

/-! ## Claim theorems -/

/-- C1: for every non-empty Key Material byte sequence, entry `i` of the
derived 256-byte keystream table equals `box[(box[k1] + box[k2]) mod
256]` where `box` is the permutation after the single KSA pass
(`coreBox`, which by definition initialises `box[0..255] = 0..255` and
runs `j = (j + box[i] + key[i mod key_length]) mod 256` followed by a
swap for `i = 0..255`), `k1 = (i + 1) mod 256` and `k2 = (k1 + box[k1])
mod 256`.  The derivation is a pure function of the key, hence
deterministic. -/
theorem keystream_table_formula (key : List Nat) (hk : key ≠ []) (i : Nat)
    (hi : i < 256) :
    (keyStream key).getD i 0 =
      (coreBox key).getD
        (((coreBox key).getD ((i + 1) % 256) 0 +
          (coreBox key).getD
            (((i + 1) % 256 + (coreBox key).getD ((i + 1) % 256) 0) % 256) 0) % 256) 0 := by
  have e : keyStream key = (List.range 256).foldl
      (fun t k => t.set k (tableEntry (coreBox key) k)) (List.replicate 256 0) := rfl
  rw [e, getD_foldl_set (tableEntry (coreBox key)) 256 (List.replicate 256 0) i
    (by rw [List.length_replicate]; exact hi), if_pos hi]
  simp [tableEntry]

/-- Witness for C1 at the one-byte key `[42]` and index `0`. -/
theorem keystream_table_formula_witness :
    ([42] : List Nat) ≠ [] ∧
    (keyStream [42]).getD 0 0 =
      (coreBox [42]).getD
        (((coreBox [42]).getD ((0 + 1) % 256) 0 +
          (coreBox [42]).getD
            (((0 + 1) % 256 + (coreBox [42]).getD ((0 + 1) % 256) 0) % 256) 0) % 256) 0 :=
  ⟨by decide, keystream_table_formula [42] (by decide) 0 (by decide)⟩

/-- C2: for every keystream table and every chunking of the audio
payload, the stream decryptor's output has exactly the payload's length,
its byte at absolute payload position `p` is `input[p] XOR table[p mod
256]`, and the stream index left after the whole payload is
`read_byte_count mod 256`, continuous across chunk boundaries (the index
is threaded from chunk to chunk, never reset). -/
theorem stream_decrypt_bytes (table : List Nat) (chunks : List (List Nat)) :
    (decStream table 0 chunks).1.length = chunks.flatten.length ∧
    (∀ p, p < chunks.flatten.length →
      (decStream table 0 chunks).1.getD p 0 =
        chunks.flatten.getD p 0 ^^^ table.getD (p % 256) 0) ∧
    (decStream table 0 chunks).2 = chunks.flatten.length % 256 := by
  refine ⟨decStream_length table chunks 0, fun p hp => ?_, ?_⟩
  · have := decStream_getD table chunks 0 p (by norm_num) hp
    simpa using this
  · have := decStream_snd table chunks 0 (by norm_num)
    simpa using this

/-- Witness for C2: the payload `[1, 2, 3]` split into the chunks
`[1]` and `[2, 3]`, decrypted with a table whose first entries are
`[7, 5, 4]`, read back at position 1. -/
theorem stream_decrypt_bytes_witness :
    (decStream [7, 5, 4] 0 [[1], [2, 3]]).1.length = [[1], [2, 3]].flatten.length ∧
    (decStream [7, 5, 4] 0 [[1], [2, 3]]).1.getD 1 0 =
      [[1], [2, 3]].flatten.getD 1 0 ^^^ [7, 5, 4].getD (1 % 256) 0 ∧
    (decStream [7, 5, 4] 0 [[1], [2, 3]]).2 = [[1], [2, 3]].flatten.length % 256 :=
  ⟨(stream_decrypt_bytes [7, 5, 4] [[1], [2, 3]]).1,
   (stream_decrypt_bytes [7, 5, 4] [[1], [2, 3]]).2.1 1 (by decide),
   (stream_decrypt_bytes [7, 5, 4] [[1], [2, 3]]).2.2⟩

/-- Helper: two lists of equal length agreeing at every in-bounds
position (via `getD`) are equal. -/
lemma list_ext_getD (l₁ l₂ : List Nat) (h : l₁.length = l₂.length)
    (h2 : ∀ p, p < l₁.length → l₁.getD p 0 = l₂.getD p 0) : l₁ = l₂ := by
  apply List.ext_getElem h
  intro i h₁ h₂'
  have := h2 i h₁
  rwa [List.getD_eq_getElem _ _ h₁, List.getD_eq_getElem _ _ h₂'] at this

/-- C3: applying the stream transform twice with the same table is the
identity — decrypting a payload and then running the decryptor again on
the result reproduces the original bytes, because the per-byte XOR with
`table[p mod 256]` is self-inverse. -/
theorem stream_decrypt_involutive (table : List Nat) (chunks : List (List Nat)) :
    (decStream table 0 [(decStream table 0 chunks).1]).1 = chunks.flatten := by
  have hlen1 : (decStream table 0 chunks).1.length = chunks.flatten.length :=
    decStream_length table chunks 0
  have hflat : ([(decStream table 0 chunks).1] : List (List Nat)).flatten =
      (decStream table 0 chunks).1 := by simp
  apply list_ext_getD
  · rw [decStream_length, hflat, hlen1]
  · intro p hp
    rw [decStream_length, hflat, hlen1] at hp
    rw [decStream_getD table _ 0 p (by norm_num) (by rw [hflat, hlen1]; exact hp),
      hflat, decStream_getD table chunks 0 p (by norm_num) hp]
    simp only [Nat.zero_add]
    rw [Nat.xor_assoc, Nat.xor_self, Nat.xor_zero]

/-- C4 counterexample: on the one-byte buffer `[5]` the pad count (5)
exceeds the buffer length (1), where the claim requires a `PaddingError`
failure; the code's `unpad` instead succeeds and returns the empty
buffer — the source defines no `PaddingError` and the slice
`s[0:-(s[-1])]` silently clamps. -/
theorem unpad_no_padding_error : unpad [5] = some [] := rfl

/-- C4 amended: for a non-empty decrypted buffer with last byte `n`,
`unpad` never fails; it strips exactly `n` trailing bytes when
`1 ≤ n ≤ length`, and silently returns the empty buffer (rather than
failing) when `n = 0` or `n` exceeds the buffer length.  Only the empty
buffer fails (Python `IndexError`, not a `PaddingError`). -/
theorem unpad_clamps (s : List Nat) (n : Nat) (h : s.getLast? = some n) :
    unpad s ≠ none ∧
    (1 ≤ n → n ≤ s.length → unpad s = some (s.take (s.length - n))) ∧
    (n = 0 → unpad s = some []) ∧
    (s.length < n → unpad s = some []) := by
  refine ⟨by simp [unpad, h], fun h1 h2 => ?_, fun h0 => ?_, fun hgt => ?_⟩
  · rw [unpad, h]
    simp only [Option.some.injEq]
    rw [if_neg (by omega)]
  · simp [unpad, h, h0]
  · rw [unpad, h]
    simp only [Option.some.injEq]
    by_cases h0 : n = 0
    · rw [if_pos h0]
    · rw [if_neg h0]
      rw [Nat.sub_eq_zero_of_le (Nat.le_of_lt hgt), List.take_zero]

/-- Witness for C4 amended at `[1, 2, 2]` (last byte 2, buffer length 3):
two trailing bytes are stripped. -/
theorem unpad_clamps_witness :
    unpad [1, 2, 2] ≠ none ∧ unpad [1, 2, 2] = some [1] :=
  ⟨(unpad_clamps [1, 2, 2] 2 rfl).1,
   (unpad_clamps [1, 2, 2] 2 rfl).2.1 (by decide) (by decide)⟩

/-- C6: the output validator accepts a stream for format `flac` iff its
first 4 bytes are `fLaC`; it accepts a stream for format `mp3` iff it
begins with `ID3` or with the MPEG sync pattern `FF FB` or `FF FA`; and
for any format other than those two it rejects every stream. -/
theorem verify_output_signatures :
    (∀ c : List Nat, verifyOutput c "flac" = true ↔ c.take 4 = [0x66, 0x4C, 0x61, 0x43]) ∧
    (∀ c : List Nat, verifyOutput c "mp3" = true ↔
      (c.take 3 = [0x49, 0x44, 0x33] ∨ c.take 2 = [0xFF, 0xFB] ∨ c.take 2 = [0xFF, 0xFA])) ∧
    (∀ (c : List Nat) (fmt : String), fmt ≠ "flac" → fmt ≠ "mp3" →
      verifyOutput c fmt = false) := by
  refine ⟨fun c => ?_, fun c => ?_, fun c fmt h1 h2 => ?_⟩
  · simp [verifyOutput]
  · have ht3 : (c.take 4).take 3 = c.take 3 := by
      rw [List.take_take]; norm_num
    have ht2 : (c.take 4).take 2 = c.take 2 := by
      rw [List.take_take]; norm_num
    simp [verifyOutput, ht3, ht2, or_assoc]
  · simp [verifyOutput, h1, h2]

/-- Witness for C6: a `fLaC` header is accepted for `flac`, an `ID3`
header is accepted for `mp3`, and the `wav` format rejects even a
valid-looking stream. -/
theorem verify_output_signatures_witness :
    (verifyOutput [0x66, 0x4C, 0x61, 0x43, 9] "flac" = true ↔
      [0x66, 0x4C, 0x61, 0x43, 9].take 4 = [0x66, 0x4C, 0x61, 0x43]) ∧
    (verifyOutput [0x49, 0x44, 0x33] "mp3" = true ↔
      ([0x49, 0x44, 0x33].take 3 = [0x49, 0x44, 0x33] ∨
       [0x49, 0x44, 0x33].take 2 = [0xFF, 0xFB] ∨
       [0x49, 0x44, 0x33].take 2 = [0xFF, 0xFA])) ∧
    verifyOutput [0x66, 0x4C, 0x61, 0x43] "wav" = false :=
  ⟨verify_output_signatures.1 [0x66, 0x4C, 0x61, 0x43, 9],
   verify_output_signatures.2.1 [0x49, 0x44, 0x33],
   verify_output_signatures.2.2 [0x66, 0x4C, 0x61, 0x43] "wav"
     (by decide) (by decide)⟩

/-- Any result dict whose `file` entry is `n` and whose `success` flag is
false is the failure record with its own error string. -/
lemma errShape (r : ConvResult) (n : String) (hf : r.fileOf = n)
    (ho : r.isOk = false) : r = ConvResult.err n (r.errMsg) := by
  cases r with
  | ok f o t ar al fm c => simp [ConvResult.isOk] at ho
  | err f e =>
    simp only [ConvResult.fileOf] at hf
    simp [ConvResult.errMsg, hf]

/-- Every record produced by the write-verify-return stage carries the
input file name. -/
lemma finishWrite_fileOf {a : Args} {ext : ExtLib} {v : Nat} {m : Meta}
    {fmt outName : String} {content : List Nat} :
    (finishWrite a ext v m fmt outName content).result.fileOf = a.name := by
  simp only [finishWrite]
  repeat' split
  all_goals rfl

/-- The write-verify-return stage records the metadata-block length it
was given. -/
lemma finishWrite_metaLen {a : Args} {ext : ExtLib} {v : Nat} {m : Meta}
    {fmt outName : String} {content : List Nat} :
    (finishWrite a ext v m fmt outName content).metaLen = some v := by
  simp only [finishWrite]
  repeat' split
  all_goals rfl

/-- The write-verify-return stage records the metadata it was given. -/
lemma finishWrite_metaUsed {a : Args} {ext : ExtLib} {v : Nat} {m : Meta}
    {fmt outName : String} {content : List Nat} :
    (finishWrite a ext v m fmt outName content).metaUsed = some m := by
  simp only [finishWrite]
  repeat' split
  all_goals rfl

/-- The write-verify-return stage records the format it was given. -/
lemma finishWrite_fmt {a : Args} {ext : ExtLib} {v : Nat} {m : Meta}
    {fmt outName : String} {content : List Nat} :
    (finishWrite a ext v m fmt outName content).fmtRecovered = some fmt := by
  simp only [finishWrite]
  repeat' split
  all_goals rfl

/-- For any format outside the validator's two-element set, every stream
is rejected (src line 55 falls through to `return False`). -/
lemma verifyOutput_ne (c : List Nat) (fmt : String) (h1 : fmt ≠ "flac")
    (h2 : fmt ≠ "mp3") : verifyOutput c fmt = false := by
  simp [verifyOutput, h1, h2]

/-- With a format outside the validator's set, the write-verify-return
stage always takes the deletion branch. -/
lemma finishWrite_unknown {a : Args} {ext : ExtLib} {v : Nat} {m : Meta}
    {fmt outName : String} {content : List Nat}
    (h1 : fmt ≠ "flac") (h2 : fmt ≠ "mp3") :
    finishWrite a ext v m fmt outName content =
      { result := ConvResult.err a.name "Output verification failed",
        outFile := none, metaLen := some v, metaUsed := some m,
        fmtRecovered := some fmt, verifyFailed := true } := by
  simp only [finishWrite]
  rw [verifyOutput_ne _ _ h1 h2]
  rfl

/-- Verification-failure bookkeeping of the write-verify-return stage:
a failed check deletes the output and yields the failure dict, and a
surviving output file means the check did not fail and its content
passes the signature check. -/
lemma finishWrite_verify {a : Args} {ext : ExtLib} {v : Nat} {m : Meta}
    {fmt outName : String} {content : List Nat} :
    ((finishWrite a ext v m fmt outName content).verifyFailed = true →
      (finishWrite a ext v m fmt outName content).outFile = none ∧
      (finishWrite a ext v m fmt outName content).result =
        ConvResult.err a.name "Output verification failed") ∧
    ((finishWrite a ext v m fmt outName content).outFile.isSome = true →
      (finishWrite a ext v m fmt outName content).verifyFailed = false) ∧
    (∀ pth c, (finishWrite a ext v m fmt outName content).outFile = some (pth, c) →
      verifyOutput c
        ((finishWrite a ext v m fmt outName content).fmtRecovered.getD "mp3") =
        true) := by
  simp only [finishWrite]
  repeat' split
  all_goals first
    | (rename_i hV hX0 hE0 hQ0
       refine ⟨fun hv => absurd hv Bool.false_ne_true, fun ho => rfl,
         fun pth c hc => ?_⟩
       have h5 := Option.some.inj hc
       injection h5 with hA2 hB2
       subst hB2
       exact hV)
    | exact ⟨fun hv => ⟨rfl, rfl⟩, fun ho => absurd ho Bool.false_ne_true,
        fun pth c hc => Option.noConfusion hc⟩

/-- The `file` entry of every record produced by the audio tail is the
input file name. -/
lemma afterMeta_fileOf {a : Args} {ext : ExtLib} {data table : List Nat}
    {v : Nat} {m : Meta} {pos : Nat} :
    (afterMeta a ext data table v m pos).result.fileOf = a.name := by
  simp only [afterMeta]
  repeat' split
  all_goals first | rfl | exact finishWrite_fileOf

/-- The audio tail always records the metadata-block length it was
given. -/
lemma afterMeta_metaLen {a : Args} {ext : ExtLib} {data table : List Nat}
    {v : Nat} {m : Meta} {pos : Nat} :
    (afterMeta a ext data table v m pos).metaLen = some v := by
  simp only [afterMeta]
  repeat' split
  all_goals first | rfl | exact finishWrite_metaLen

/-- The audio tail always records the metadata it was given. -/
lemma afterMeta_metaUsed {a : Args} {ext : ExtLib} {data table : List Nat}
    {v : Nat} {m : Meta} {pos : Nat} :
    (afterMeta a ext data table v m pos).metaUsed = some m := by
  simp only [afterMeta]
  repeat' split
  all_goals first | rfl | exact finishWrite_metaUsed

/-- With a zero metadata-block length, the metadata stage synthesizes
the default record without reading or failing. -/
lemma metaParse_zero (a : Args) (ext : ExtLib) (data : List Nat) (pos : Nat) :
    metaParse a ext data 0 pos = Except.ok (defaultMeta a.stem, pos) := by
  simp [metaParse]

/-- Verification-failure bookkeeping of the audio tail. -/
lemma afterMeta_verify {a : Args} {ext : ExtLib} {data table : List Nat}
    {v : Nat} {m : Meta} {pos : Nat} :
    ((afterMeta a ext data table v m pos).verifyFailed = true →
      (afterMeta a ext data table v m pos).outFile = none ∧
      (afterMeta a ext data table v m pos).result =
        ConvResult.err a.name "Output verification failed") ∧
    ((afterMeta a ext data table v m pos).outFile.isSome = true →
      (afterMeta a ext data table v m pos).verifyFailed = false) ∧
    (∀ pth c, (afterMeta a ext data table v m pos).outFile = some (pth, c) →
      verifyOutput c
        ((afterMeta a ext data table v m pos).fmtRecovered.getD "mp3") = true) := by
  simp only [afterMeta]
  repeat' split
  all_goals first
    | exact finishWrite_verify
    | exact ⟨fun hv => absurd hv Bool.false_ne_true,
        fun ho => absurd ho Bool.false_ne_true,
        fun pth c hc => Option.noConfusion hc⟩

/-- If the audio tail recovered a format outside the validator's set,
the conversion cannot succeed and no output survives; when the output
name was formed, verification failed and the failure dict was returned;
when forming the output name raised, that error is the result and
verification never ran. -/
lemma afterMeta_unknown {a : Args} {ext : ExtLib} {data table : List Nat}
    {v : Nat} {m : Meta} {pos : Nat} {fmt : String}
    (hf : (afterMeta a ext data table v m pos).fmtRecovered = some fmt)
    (h1 : fmt ≠ "flac") (h2 : fmt ≠ "mp3") :
    (afterMeta a ext data table v m pos).result.isOk = false ∧
    (afterMeta a ext data table v m pos).outFile = none ∧
    (∀ outName, pathWithSuffix a.stem fmt = Except.ok outName →
      (afterMeta a ext data table v m pos).verifyFailed = true ∧
      (afterMeta a ext data table v m pos).result =
        ConvResult.err a.name "Output verification failed") ∧
    (∀ e, pathWithSuffix a.stem fmt = Except.error e →
      (afterMeta a ext data table v m pos).verifyFailed = false ∧
      (afterMeta a ext data table v m pos).result = ConvResult.err a.name e) := by
  revert hf
  simp only [afterMeta]
  repeat' split
  all_goals rename_i hS
  all_goals intro hf
  all_goals first
    | exact Option.noConfusion hf
    | (have hF := Option.some.inj hf
       subst hF
       refine ⟨rfl, rfl, fun outName hOk => ?_, fun e hE => ?_⟩
       · rw [hS] at hOk
         exact Except.noConfusion hOk
       · rw [hS] at hE
         injection hE with hEE
         subst hEE
         exact ⟨rfl, rfl⟩)
    | (rw [finishWrite_fmt] at hf
       have hF := Option.some.inj hf
       subst hF
       rw [finishWrite_unknown h1 h2]
       refine ⟨rfl, rfl, fun outName2 hOk => ⟨rfl, rfl⟩, fun e hE => ?_⟩
       rw [hS] at hE
       exact Except.noConfusion hE)

/-- The `file` entry of the returned dict is always the input file name. -/
lemma runNcm_fileOf (a : Args) (ext : ExtLib) :
    (runNcm a ext).result.fileOf = a.name := by
  simp only [runNcm]
  repeat' split
  all_goals first | rfl | exact afterMeta_fileOf

/-- C5: any input whose first 8 bytes differ from the magic signature —
including the empty file, 1-7 byte truncations and garbage — is rejected
with the `Invalid NCM header` failure before any further parsing: no
section length is parsed, no metadata is decoded, no format is recovered
and no output file is created. -/
theorem invalid_header_rejected (a : Args) (ext : ExtLib)
    (h : a.bytes.take 8 ≠ magicBytes) :
    runNcm a ext =
      { result := ConvResult.err a.name "Invalid NCM header", outFile := none,
        metaLen := none, metaUsed := none, fmtRecovered := none,
        verifyFailed := false } := by
  simp only [runNcm]
  rw [if_neg h]

/-- Witness for C5 at the empty file. -/
theorem invalid_header_rejected_witness :
    eArgs.bytes.take 8 ≠ magicBytes ∧
    runNcm eArgs wExt =
      { result := ConvResult.err "empty.ncm" "Invalid NCM header", outFile := none,
        metaLen := none, metaUsed := none, fmtRecovered := none,
        verifyFailed := false } :=
  ⟨by decide, invalid_header_rejected eArgs wExt (by decide)⟩

/-- C7: whenever verification of the decrypted output fails, the written
output file is deleted (no output survives) and the run's result is the
`Output verification failed` failure dict; and the output path is
finalized only when validation succeeds: an output file survives only if
the verification check did not fail, and its content then satisfies the
signature check for the recovered format.  (A surviving output does not
imply a success verdict: a malformed `artist` value raises at src line
182 after verification, failing the file while the verified output
stays in place.) -/
theorem verify_fail_deletes (a : Args) (ext : ExtLib) :
    ((runNcm a ext).verifyFailed = true →
      (runNcm a ext).outFile = none ∧
      (runNcm a ext).result = ConvResult.err a.name "Output verification failed") ∧
    ((runNcm a ext).outFile.isSome = true → (runNcm a ext).verifyFailed = false) ∧
    (∀ pth c, (runNcm a ext).outFile = some (pth, c) →
      verifyOutput c ((runNcm a ext).fmtRecovered.getD "mp3") = true) := by
  simp only [runNcm]
  repeat' split
  all_goals first
    | exact afterMeta_verify
    | exact ⟨fun hv => absurd hv Bool.false_ne_true,
        fun ho => absurd ho Bool.false_ne_true,
        fun pth c hc => Option.noConfusion hc⟩

set_option maxRecDepth 100000 in
/-- Witness for C7: on `wArgs` the one-byte payload cannot satisfy the
`mp3` signature, so verification fails, the output is gone and the
failure dict is returned. -/
theorem verify_fail_deletes_witness :
    (runNcm wArgs wExt).verifyFailed = true ∧
    ((runNcm wArgs wExt).outFile = none ∧
     (runNcm wArgs wExt).result =
       ConvResult.err "song.ncm" "Output verification failed") :=
  ⟨by decide, (verify_fail_deletes wArgs wExt).1 (by decide)⟩

/-- C8: whenever the metadata-block length field parses as zero, the
pipeline proceeds with exactly the default record `{format: "mp3",
musicName: <file stem>, artist: [], album: "Unknown", musicId: 0}` — the
metadata stage cannot fail on an absent block. -/
theorem empty_meta_defaults (a : Args) (ext : ExtLib)
    (h : (runNcm a ext).metaLen = some 0) :
    (runNcm a ext).metaUsed = some (defaultMeta a.stem) := by
  revert h
  simp only [runNcm]
  repeat' split
  all_goals rename_i hL
  all_goals intro h
  all_goals first
    | exact Option.noConfusion h
    | (have h0 := Option.some.inj h
       subst h0
       rw [metaParse_zero] at hL
       exact Except.noConfusion hL)
    | (rw [afterMeta_metaLen] at h
       have h0 := Option.some.inj h
       subst h0
       rw [metaParse_zero] at hL
       have hP := Except.ok.inj hL
       injection hP with hA hB
       subst hA
       rw [afterMeta_metaUsed])

set_option maxRecDepth 100000 in
/-- Witness for C8: `wArgs` carries `meta_len = 0` and yields the
default record for the stem `song`. -/
theorem empty_meta_defaults_witness :
    (runNcm wArgs wExt).metaLen = some 0 ∧
    (runNcm wArgs wExt).metaUsed = some (defaultMeta "song") :=
  ⟨by decide, empty_meta_defaults wArgs wExt (by decide)⟩

/-- C9: `decrypt_ncm` always returns a tagged result dict whose `file`
entry is the input file name; whenever the `success` flag is false the
result is precisely the failure dict carrying the file name and the
error string — no internal error escapes as an exception (in the model,
every `Except.error` branch of a collaborator or parser ends in such a
dict, including the post-verification artist extraction and the
`with_suffix` path error). -/
theorem result_always_tagged (a : Args) (ext : ExtLib) :
    (runNcm a ext).result.fileOf = a.name ∧
    ((runNcm a ext).result.isOk = false →
      (runNcm a ext).result =
        ConvResult.err a.name ((runNcm a ext).result.errMsg)) :=
  ⟨runNcm_fileOf a ext, fun ho => errShape _ _ (runNcm_fileOf a ext) ho⟩

/-- Witness for C9 at the empty file, whose run fails. -/
theorem result_always_tagged_witness :
    (runNcm eArgs wExt).result.fileOf = "empty.ncm" ∧
    (runNcm eArgs wExt).result =
      ConvResult.err "empty.ncm" ((runNcm eArgs wExt).result.errMsg) :=
  ⟨(result_always_tagged eArgs wExt).1,
   (result_always_tagged eArgs wExt).2 (by decide)⟩

set_option maxRecDepth 100000 in
/-- C10 counterexample: a metadata block declaring the format `""`
(outside the validator's set) does not end in verification failure —
`with_suffix` raises `ValueError("Invalid suffix '.'")` at src line 116
before any output is written, and that error, not
`Output verification failed`, is the reported failure; the verification
check never runs. -/
theorem unknown_format_not_verification_failure :
    (runNcm wArgs2 wExt3).fmtRecovered = some "" ∧
    (runNcm wArgs2 wExt3).verifyFailed = false ∧
    (runNcm wArgs2 wExt3).outFile = none ∧
    (runNcm wArgs2 wExt3).result = ConvResult.err "a.ncm" "Invalid suffix '.'" := by
  decide

/-- C10 amended: whenever the recovered format string is neither `flac`
nor `mp3`, the conversion can never succeed and no output file survives;
when the format yields a valid output suffix (the payload gets written),
the validator rejects unconditionally, so verification fails, the output
is deleted and the result is the `Output verification failed` dict; when
the format makes `with_suffix` raise (for example the empty string), the
run aborts with that error before anything is written and verification
never runs. -/
theorem unknown_format_fails (a : Args) (ext : ExtLib) (fmt : String)
    (hf : (runNcm a ext).fmtRecovered = some fmt)
    (h1 : fmt ≠ "flac") (h2 : fmt ≠ "mp3") :
    (runNcm a ext).result.isOk = false ∧
    (runNcm a ext).outFile = none ∧
    (∀ outName, pathWithSuffix a.stem fmt = Except.ok outName →
      (runNcm a ext).verifyFailed = true ∧
      (runNcm a ext).result = ConvResult.err a.name "Output verification failed") ∧
    (∀ e, pathWithSuffix a.stem fmt = Except.error e →
      (runNcm a ext).verifyFailed = false ∧
      (runNcm a ext).result = ConvResult.err a.name e) := by
  revert hf
  simp only [runNcm]
  repeat' split
  all_goals intro hf
  all_goals first
    | exact Option.noConfusion hf
    | exact afterMeta_unknown hf h1 h2

set_option maxRecDepth 100000 in
/-- Witness for C10 amended: `wExt2` parses metadata declaring the
format `wav`, whose suffix is valid; the run on `wArgs2` recovers it,
cannot succeed, and ends in verification failure with no output. -/
theorem unknown_format_fails_witness :
    (runNcm wArgs2 wExt2).result.isOk = false ∧
    (runNcm wArgs2 wExt2).outFile = none ∧
    ((runNcm wArgs2 wExt2).verifyFailed = true ∧
     (runNcm wArgs2 wExt2).result =
       ConvResult.err "a.ncm" "Output verification failed") := by
  have h := unknown_format_fails wArgs2 wExt2 "wav" (by decide) (by decide) (by decide)
  exact ⟨h.1, h.2.1, h.2.2.1 "a.wav" rfl⟩
